import Mathlib

/-!
# Verification of `flight_tracker.py`

A shallow embedding of the flight-tracker script: a Python/JSON value model
(`PyVal`), the pure helper functions (`haversine`, `parse_altitude`, the three
color functions), the two fetchers (`fetch_aircraft`, `fetch_route_info` with
its callsign cache), the pure computations of `FlightDisplay.draw`
(`drawCompute`), and one iteration of the `FlightTrackerApp.run` loop
(`runIteration`).

Conventions of the embedding:
* JSON/Python values are `PyVal`; JSON numbers are rationals (`ℚ`); the real
  trigonometry of `haversine` is over `ℝ`.
* Python exceptions are `Except PyErr`; an uncaught exception in the modelled
  code surfaces as `Except.error`.
* Each HTTP interaction is an oracle parameter: the position fetch receives
  `resp : Option PyVal` (`none` = transport error, non-2xx status, or a body
  that is not JSON-decodable; `some v` = the decoded JSON body), and the route
  lookup receives `net : String → Option PyVal` with the same convention.
* Python `str.strip()` is modelled by `strTrim` (remove leading and
  trailing whitespace) and `int(str)` by `parseIntStr` (optional surrounding
  whitespace, optional sign, a nonempty digit run; Python extras such as
  underscore separators are not modelled and no claim depends on them).
-/

/-- Python exception kinds that the modelled code can raise. -/
inductive PyErr where
  | typeError
  | valueError
  | attributeError
  | indexError
deriving Repr, DecidableEq

/-- A Python/JSON value: `None`, bool, number (JSON numbers as `ℚ`),
string, list, or dict (an insertion-ordered association list with string
keys, as produced by JSON decoding). -/
inductive PyVal where
  | vnone
  | vbool (b : Bool)
  | vnum (q : ℚ)
  | vstr (s : String)
  | vlist (l : List PyVal)
  | vdict (d : List (String × PyVal))

/-- Python truthiness: `None`/`False`/`0`/`""`/`[]`/`\x7b\x7d` are falsy. -/
def PyVal.truthy : PyVal → Bool
  | .vnone => false
  | .vbool b => b
  | .vnum q => decide (q ≠ 0)
  | .vstr s => decide (s ≠ "")
  | .vlist l => !l.isEmpty
  | .vdict d => !d.isEmpty

/-- Association-list lookup (Python `dict` access: first matching key; keys
are unique in dicts built by JSON decoding, and `alSet` keeps them unique). -/
def alGet {α : Type} : List (String × α) → String → Option α
  | [], _ => none
  | (k', v') :: t, k => if k' = k then some v' else alGet t k

/-- Association-list update (Python `dict` item assignment: replace the value
at an existing key in place, else append a new entry; insertion order is
preserved as in Python 3.7+ dicts). -/
def alSet {α : Type} : List (String × α) → String → α → List (String × α)
  | [], k, v => [(k, v)]
  | (k', v') :: t, k, v => if k' = k then (k', v) :: t else (k', v') :: alSet t k v

/-- Python `d.get(key, default)`: raises `AttributeError` unless the receiver
is a dict (e.g. `"abc".get(...)`, `[].get(...)`, `(5).get(...)` all raise). -/
def pyGetD : PyVal → String → PyVal → Except PyErr PyVal
  | .vdict d, k, dflt => .ok ((alGet d k).getD dflt)
  | _, _, _ => .error .attributeError

/-- Leading and trailing whitespace removed from a character list. -/
def listTrim (l : List Char) : List Char :=
  ((l.dropWhile (·.isWhitespace)).reverse.dropWhile (·.isWhitespace)).reverse

/-- Python `str.strip()` with no argument: the string without leading and
trailing whitespace. -/
def strTrim (s : String) : String := ⟨listTrim s.data⟩

/-- Python `v.strip()`: defined for strings only, `AttributeError` otherwise. -/
def pyStrip : PyVal → Except PyErr String
  | .vstr s => .ok (strTrim s)
  | _ => .error .attributeError

/-- Digit run to a natural number (helper for `parseIntStr`). -/
def digitsToNat (l : List Char) : ℕ :=
  l.foldl (fun acc c => 10 * acc + (c.toNat - 48)) 0

/-- The integer-literal strings accepted by Python `int(str)`: optional
surrounding whitespace, an optional `+`/`-` sign, then a nonempty digit run. -/
def parseIntStr (s : String) : Option ℤ :=
  match (strTrim s).data with
  | [] => none
  | c :: rest =>
    let (sign, digits) : ℤ × List Char :=
      if c = '-' then (-1, rest) else if c = '+' then (1, rest) else (1, c :: rest)
    if digits ≠ [] ∧ digits.all Char.isDigit then some (sign * digitsToNat digits)
    else none

/-- Truncation toward zero, the rounding of Python `int(float)`:
`int(2.7) = 2`, `int(-2.7) = -2` (`Int.tdiv` truncates toward zero and a
rational's denominator is positive; see `ratTrunc_eq_floor` and
`ratTrunc_eq_ceil` for the floor/ceiling characterization). -/
def ratTrunc (q : ℚ) : ℤ := q.num.tdiv q.den

/-- Python `int(v)`: `TypeError` for `None`/lists/dicts, `ValueError` for a
string that is not an integer literal, truncation toward zero for numbers,
`0`/`1` for bools. -/
def pyInt : PyVal → Except PyErr ℤ
  | .vnone => .error .typeError
  | .vbool b => .ok (if b then 1 else 0)
  | .vnum q => .ok (ratTrunc q)
  | .vstr s =>
    match parseIntStr s with
    | some n => .ok n
    | none => .error .valueError
  | .vlist _ => .error .typeError
  | .vdict _ => .error .typeError

/-- Conversion of a Python value to a float as done implicitly by
`math.radians` inside `haversine`: numbers and bools convert, everything else
raises `TypeError`. -/
def pyNum : PyVal → Except PyErr ℚ
  | .vnum q => .ok q
  | .vbool b => .ok (if b then 1 else 0)
  | _ => .error .typeError

/-- Python `v == "lit"` for a string literal: only an equal string compares
equal; values of other types are never equal to a string. -/
def pyEqStr : PyVal → String → Bool
  | .vstr t, s => t == s
  | _, _ => false

/-! ## Constants of the script -/

/-- `HOME_COORDS = (31.0, -97.0)`. -/
def HOME_COORDS : ℚ × ℚ := (31, -97)

/-- One entry of `LOCATIONS`. -/
structure Area where
  name : String
  lat : ℚ
  lon : ℚ
  radius : ℚ

/-- `LOCATIONS`: the three metro areas scanned in rotation. -/
def LOCATIONS : List Area :=
  [⟨"Austin", 30.3, -97.7, 50⟩,
   ⟨"Dallas/Fort Worth", 32.9, -97, 50⟩,
   ⟨"Houston", 29.9, -95.3, 50⟩]

/-- `AIRLINE_LOGO_DOMAINS`: the airline-name → logo-domain table. -/
def AIRLINE_LOGO_DOMAINS : List (String × String) :=
  [("American Airlines", "aa.com"),
   ("Delta Air Lines", "delta.com"),
   ("United Airlines", "united.com"),
   ("Southwest Airlines", "southwest.com"),
   ("Alaska Airlines", "alaskaair.com")]

/-- `MAX_AIRCRAFT = 20`. -/
def MAX_AIRCRAFT : ℕ := 20

/-! ## Pure helper functions of the script -/

/-- `math.radians(x) = x * π / 180`. -/
noncomputable def radians (x : ℝ) : ℝ := x * Real.pi / 180

/-- `math.atan2(y, x)` over the reals (signed zeros of IEEE floats collapse
to the single real `0`). -/
noncomputable def atan2 (y x : ℝ) : ℝ :=
  if 0 < x then Real.arctan (y / x)
  else if x = 0 then
    (if 0 < y then Real.pi / 2 else if y < 0 then -(Real.pi / 2) else 0)
  else
    (if 0 ≤ y then Real.arctan (y / x) + Real.pi else Real.arctan (y / x) - Real.pi)

/-- `haversine(lat1, lon1, lat2, lon2)`: great-circle distance in km with
Earth radius `R = 6371`, exactly as computed in the script. -/
noncomputable def haversine (lat1 lon1 lat2 lon2 : ℝ) : ℝ :=
  let R : ℝ := 6371
  let phi1 := radians lat1
  let phi2 := radians lat2
  let dphi := radians (lat2 - lat1)
  let dlambda := radians (lon2 - lon1)
  let a := Real.sin (dphi / 2) ^ 2 +
    Real.cos phi1 * Real.cos phi2 * Real.sin (dlambda / 2) ^ 2
  R * 2 * atan2 (Real.sqrt a) (Real.sqrt (1 - a))

/-- `parse_altitude(alt)`: `int(alt)`, with `ValueError`/`TypeError` mapped
to `0` (the only exceptions `int` raises here, and the two the script
catches). -/
def parse_altitude (alt : PyVal) : ℤ :=
  match pyInt alt with
  | .ok n => n
  | .error _ => 0

/-- `max(0, min(1, x))`, the clamp used by all three color functions. -/
def clamp01 (x : ℚ) : ℚ := max 0 (min 1 x)

/-- `alt_color(alt) = (int(255 * max(0, min(1, 1 - alt / 40000))), 0, 0)`. -/
def alt_color (alt : ℚ) : ℤ × ℤ × ℤ :=
  (ratTrunc (255 * clamp01 (1 - alt / 40000)), 0, 0)

/-- `dist_color(dist) = (int(255 * max(0, min(1, 1 - dist / 100))), 0, 0)`. -/
def dist_color (dist : ℚ) : ℤ × ℤ × ℤ :=
  (ratTrunc (255 * clamp01 (1 - dist / 100)), 0, 0)

/-- `speed_color(speed) = (0, int(200 * max(0, min(1, speed / 600))), 0)`. -/
def speed_color (speed : ℚ) : ℤ × ℤ × ℤ :=
  (0, ratTrunc (200 * clamp01 (speed / 600)), 0)

/-! ## `FlightFetcher` -/

/-- Python `v[:MAX_AIRCRAFT]`: slicing is defined for lists and strings
(the only sliceable values JSON can produce); on any other value `[:20]`
raises `TypeError`. -/
def pySlice20 : PyVal → Except PyErr PyVal
  | .vlist l => .ok (.vlist (l.take MAX_AIRCRAFT))
  | .vstr s => .ok (.vstr ⟨s.data.take MAX_AIRCRAFT⟩)
  | _ => .error .typeError

/-- `FlightFetcher.fetch_aircraft`: `resp` is `none` when the HTTP request
raised, `raise_for_status` raised (non-2xx), or the body was not decodable
JSON; otherwise `some body`. The try-block computes
`body.get("ac", [])[:MAX_AIRCRAFT]`; any exception inside it (a non-dict
body, a non-sliceable `"ac"` value) is caught and becomes `[]`. -/
def fetch_aircraft (resp : Option PyVal) : PyVal :=
  match resp with
  | none => .vlist []
  | some body =>
    match (pyGetD body "ac" (.vlist [])).bind pySlice20 with
    | .ok r => r
    | .error _ => .vlist []

/-- The `(airline, origin, dest)` triple returned by
`FlightFetcher.fetch_route_info`. -/
def Triple : Type := PyVal × PyVal × PyVal

/-- The `"N/A"` sentinel value. -/
def NA : PyVal := .vstr "N/A"

/-- The all-`"N/A"` sentinel triple. -/
def sentinelTriple : Triple := (NA, NA, NA)

/-- `self.callsign_cache`: a dict keyed by exact callsign string. -/
def Cache : Type := List (String × Triple)

/-- The try-block of `fetch_route_info` that digs the airline, origin, and
destination names out of the decoded JSON body, in source order; any `.get`
on a non-dict raises `AttributeError` (caught by the caller). -/
def parseRouteE (j : PyVal) : Except PyErr Triple :=
  (pyGetD j "response" (.vdict [])).bind fun r =>
  (pyGetD r "flightroute" (.vdict [])).bind fun fr =>
  (pyGetD fr "airline" (.vdict [])).bind fun al =>
  (pyGetD al "name" NA).bind fun airline =>
  (pyGetD fr "origin" (.vdict [])).bind fun og =>
  (pyGetD og "name" NA).bind fun origin =>
  (pyGetD fr "destination" (.vdict [])).bind fun de =>
  (pyGetD de "name" NA).bind fun dest =>
  .ok (airline, origin, dest)

/-- The route triple obtained from a decoded lookup body: the parse result,
with a parse exception recovered to the sentinel triple (the script's
`except` clause). -/
def parseRoute (j : PyVal) : Triple :=
  match parseRouteE j with
  | .ok t => t
  | .error _ => sentinelTriple

/-- Result of one `fetch_route_info` call: the returned triple, the cache
after the call, and how many network requests the call issued. -/
structure RouteOut where
  triple : Triple
  cache : Cache
  calls : ℕ

/-- The try/except block of `fetch_route_info` around the network request:
the parsed triple on success, the sentinel on a transport/decode error
(`net cs = none`) or a parse exception. -/
def routeLookup (net : String → Option PyVal) (cs : String) : Triple :=
  match net cs with
  | none => sentinelTriple
  | some j => parseRoute j

/-- `FlightFetcher.fetch_route_info(callsign)`: cache hit returns the cached
triple with no network call; an empty callsign caches and returns the
sentinel with no network call; otherwise one request is issued and the
parsed triple — or the sentinel on any error — is cached (`routeLookup`);
the function returns `self.callsign_cache[callsign]`. -/
def fetch_route_info (net : String → Option PyVal) (cache : Cache) (cs : String) :
    RouteOut :=
  match alGet cache cs with
  | some t => ⟨t, cache, 0⟩
  | none =>
    if cs = "" then
      let c2 := alSet cache cs sentinelTriple
      ⟨(alGet c2 cs).getD sentinelTriple, c2, 0⟩
    else
      let t := routeLookup net cs
      let c2 := alSet cache cs t
      ⟨(alGet c2 cs).getD sentinelTriple, c2, 1⟩

/-- The cache after a sequence of further `fetch_route_info` calls. -/
def runCalls (net : String → Option PyVal) (cache : Cache) : List String → Cache
  | [] => cache
  | cs :: rest => runCalls net (fetch_route_info net cache cs).cache rest

/-! ## `FlightDisplay` -/

/-- `AIRLINE_LOGO_DOMAINS.get(airline)` at the top of `fetch_logo`: outside
the try-block, so an unhashable argument (a list or dict) raises `TypeError`;
any hashable non-string finds no entry. The network part of `fetch_logo` is
fully guarded and cannot raise, so the domain lookup is all that matters for
control flow. -/
def logoLookup : PyVal → Except PyErr (Option String)
  | .vlist _ => .error .typeError
  | .vdict _ => .error .typeError
  | .vstr s => .ok (alGet AIRLINE_LOGO_DOMAINS s)
  | _ => .ok none

/-- The values `FlightDisplay.draw` computes from the first aircraft record
before laying out text: callsign, altitude, speed, the (truthy) coordinates
selected for the haversine call, the three route fields, and the logo-domain
lookup result. -/
structure DrawOut where
  callsign : String
  alt : ℤ
  speed : ℤ
  coords : Option (ℚ × ℚ)
  airline : PyVal
  origin : PyVal
  dest : PyVal
  logoDomain : Option String

/-- The computation of `FlightDisplay.draw` on `aircraft`, in source order:
`ac = aircraft[0]`, `callsign = ac.get("flight", "N/A").strip()`,
`alt = parse_altitude(ac.get("alt_baro"))`, `speed = int(ac.get("gs") or 0)`,
`lat, lon = ac.get("lat"), ac.get("lon")`, the three route fields, then
`haversine(...) if lat and lon else 0` (`coords = some (lat, lon)` records
that the truthy branch was taken and what `haversine` receives), and the
`fetch_logo` domain lookup. Text layout and the display sink are external
and cannot raise. -/
def drawCompute (aircraft : List PyVal) : Except PyErr DrawOut :=
  (match aircraft.head? with
   | some a => Except.ok a
   | none => Except.error PyErr.indexError).bind fun ac =>
  (pyGetD ac "flight" NA).bind fun flv =>
  (pyStrip flv).bind fun callsign =>
  (pyGetD ac "alt_baro" .vnone).bind fun abv =>
  let alt := parse_altitude abv
  (pyGetD ac "gs" .vnone).bind fun gsv =>
  (pyInt (if gsv.truthy then gsv else .vnum 0)).bind fun speed =>
  (pyGetD ac "lat" .vnone).bind fun latv =>
  (pyGetD ac "lon" .vnone).bind fun lonv =>
  (pyGetD ac "airline_name" NA).bind fun airline =>
  (pyGetD ac "origin_name" NA).bind fun origin =>
  (pyGetD ac "destination_name" NA).bind fun dest =>
  (if latv.truthy && lonv.truthy then
     (pyNum latv).bind fun a => (pyNum lonv).bind fun b => Except.ok (some (a, b))
   else Except.ok none).bind fun coords =>
  (logoLookup airline).bind fun dom =>
  Except.ok ⟨callsign, alt, speed, coords, airline, origin, dest, dom⟩

/-- `dist_km` in `draw`: `haversine(home[0], home[1], lat, lon) if lat and
lon else 0`. -/
noncomputable def DrawOut.dist_km (home : ℚ × ℚ) (o : DrawOut) : ℝ :=
  match o.coords with
  | some (a, b) => haversine home.1 home.2 a b
  | none => 0

/-- `dist_mi = dist_km * 0.621371` in `draw`. -/
noncomputable def DrawOut.dist_mi (home : ℚ × ℚ) (o : DrawOut) : ℝ :=
  o.dist_km home * 0.621371

/-- `speed_mph = speed * 1.15078` in `draw`. -/
def DrawOut.speed_mph (o : DrawOut) : ℚ := (o.speed : ℚ) * 1.15078

/-! ## `FlightTrackerApp` -/

/-- The mutable state of `FlightTrackerApp`: the area index, the rotation
timestamp (wall-clock seconds, as an exact rational), and the fetcher's
callsign cache. -/
structure AppState where
  idx : ℕ
  last_switch : ℚ
  cache : Cache

/-- Python `for ac in v`: lists iterate elements, strings iterate their
characters as one-character strings, dicts iterate keys; iterating any
other value raises `TypeError`. -/
def pyIter : PyVal → Except PyErr (List PyVal)
  | .vlist l => .ok l
  | .vstr s => .ok (s.data.map fun c => .vstr ⟨[c]⟩)
  | .vdict d => .ok (d.map fun p => .vstr p.1)
  | _ => .error .typeError

/-- The enrichment loop of `run`: per record, `callsign = (ac.get("flight")
or "").strip()`, resolve the route, and keep (with the three route fields
written into the record via `ac.update`) exactly the records whose airline
is not `"N/A"`, in order, threading the callsign cache through. -/
def enrichLoop (net : String → Option PyVal) :
    Cache → List PyVal → Except PyErr (List PyVal × Cache)
  | cache, [] => .ok ([], cache)
  | cache, ac :: rest =>
    (pyGetD ac "flight" .vnone).bind fun flv =>
    (pyStrip (if flv.truthy then flv else .vstr "")).bind fun cs =>
    let r := fetch_route_info net cache cs
    if pyEqStr r.triple.1 "N/A" then
      enrichLoop net r.cache rest
    else
      (match ac with
       | .vdict d =>
         Except.ok (PyVal.vdict (alSet (alSet (alSet d "airline_name" r.triple.1)
           "origin_name" r.triple.2.1) "destination_name" r.triple.2.2))
       | _ => Except.error PyErr.attributeError).bind fun ac' =>
      (enrichLoop net r.cache rest).bind fun ec =>
      Except.ok (ac' :: ec.1, ec.2)

/-- One iteration of the `while True` body of `FlightTrackerApp.run`:
timed rotation, position fetch, enrichment, then either rendering (the
`some`-result) or the skip-forward advance (the `none`-result). `net` and
`resp` are the iteration's network oracles and `now` is `time.time()`.
`time.sleep(10)` affects no state. -/
def runIteration (net : String → Option PyVal) (resp : Option PyVal)
    (st : AppState) (now : ℚ) : Except PyErr (AppState × Option DrawOut) :=
  let st1 := if now - st.last_switch ≥ 300 then
               { st with idx := (st.idx + 1) % LOCATIONS.length, last_switch := now }
             else st
  let aircraft := fetch_aircraft resp
  (pyIter aircraft).bind fun items =>
  (enrichLoop net st1.cache items).bind fun ec =>
  if ec.1.isEmpty then
    Except.ok ({ idx := (st1.idx + 1) % LOCATIONS.length, last_switch := now,
                 cache := ec.2 }, none)
  else
    (drawCompute ec.1).bind fun o =>
    Except.ok ({ st1 with cache := ec.2 }, some o)

/-! ## Predicates used to state the claims -/

/-- The number of elements of the value returned by `fetch_aircraft`
(entries of a list, characters of a string). -/
def fetchCount : PyVal → ℕ
  | .vlist l => l.length
  | .vstr s => s.data.length
  | _ => 0

/-- Whether an `Except` computation succeeded. -/
def exOk {α : Type} : Except PyErr α → Bool
  | .ok _ => true
  | .error _ => false

/-- Total version of `pyIter` (`fetch_aircraft` only returns lists and
strings, on which `pyIter` never fails). -/
def pyIterL : PyVal → List PyVal
  | .vlist l => l
  | .vstr s => s.data.map fun c => .vstr ⟨[c]⟩
  | .vdict d => d.map fun p => .vstr p.1
  | _ => []

/-- A null-or-string field value. -/
def strOrNone : PyVal → Bool
  | .vnone => true
  | .vstr _ => true
  | _ => false

/-- A null-or-number field value. -/
def numOrNone : PyVal → Bool
  | .vnone => true
  | .vnum _ => true
  | _ => false

/-- An absent field, or one whose value satisfies `f`. -/
def fieldOk (f : PyVal → Bool) : Option PyVal → Bool
  | none => true
  | some v => f v

/-- An aircraft record conforming to the spec's `RawAircraft` data model:
a JSON object whose `flight` is a string (or null/absent) and whose `gs`,
`lat`, `lon` are numbers (or null/absent); other fields are unconstrained. -/
def wellTypedAC : PyVal → Bool
  | .vdict d =>
    fieldOk strOrNone (alGet d "flight") && fieldOk numOrNone (alGet d "gs") &&
    fieldOk numOrNone (alGet d "lat") && fieldOk numOrNone (alGet d "lon")
  | _ => false

/-- A hashable Python value (lists and dicts are unhashable; passing one to
`AIRLINE_LOGO_DOMAINS.get` in `fetch_logo` raises `TypeError`). -/
def hashablePy : PyVal → Bool
  | .vlist _ => false
  | .vdict _ => false
  | _ => true

/-- A well-formed callsign cache: the empty-callsign entry (if present) maps
to an `"N/A"` airline, and every cached airline value is hashable. Holds for
the initial empty cache and is preserved by `fetch_route_info`. -/
def cacheOk (c : Cache) : Bool :=
  c.all fun p => (p.1 != "" || pyEqStr p.2.1 "N/A") && hashablePy p.2.1

/-- A route-lookup service whose parsed airline names are hashable values
(e.g. strings or null, as the real service returns). -/
def netOk (net : String → Option PyVal) : Prop :=
  ∀ cs j, net cs = some j → hashablePy (parseRoute j).1 = true

/-- The invariant enjoyed by every record the enrichment loop passes to
`draw`: a dict whose `flight` value (if present) is a string, whose `gs`,
`lat`, `lon` values (if present) are numbers or null, and whose
`airline_name` value (if present) is hashable. -/
def drawSafe : PyVal → Bool
  | .vdict d =>
    fieldOk (fun v => match v with | .vstr _ => true | _ => false) (alGet d "flight") &&
    fieldOk numOrNone (alGet d "gs") &&
    fieldOk numOrNone (alGet d "lat") && fieldOk numOrNone (alGet d "lon") &&
    fieldOk hashablePy (alGet d "airline_name")
  | _ => false

/-! ## Helper lemmas -/

theorem exbind_ok {α β : Type} {m : Except PyErr α} {f : α → Except PyErr β} {b : β}
    (h : m.bind f = .ok b) : ∃ a, m = .ok a ∧ f a = .ok b := by
  cases m with
  | error e => exact absurd h (by simp [Except.bind])
  | ok a => exact ⟨a, rfl, by simpa [Except.bind] using h⟩

@[simp] theorem exbind_ok_left {α β : Type} (a : α) (f : α → Except PyErr β) :
    (Except.ok a : Except PyErr α).bind f = f a := rfl

@[simp] theorem exbind_error_left {α β : Type} (e : PyErr) (f : α → Except PyErr β) :
    (Except.error e : Except PyErr α).bind f = .error e := rfl

theorem alGet_alSet_self {α : Type} (c : List (String × α)) (k : String) (v : α) :
    alGet (alSet c k v) k = some v := by
  induction c with
  | nil => simp [alGet, alSet]
  | cons p t ih =>
    by_cases h : p.1 = k
    · simp [alSet, alGet, h]
    · simp [alSet, alGet, h, ih]

theorem alGet_alSet_ne {α : Type} (c : List (String × α)) (k k' : String) (v : α)
    (h : k' ≠ k) : alGet (alSet c k v) k' = alGet c k' := by
  induction c with
  | nil =>
    simp only [alSet, alGet]
    rw [if_neg (fun hk => h hk.symm)]
  | cons p t ih =>
    by_cases hp : p.1 = k
    · simp only [alSet, if_pos hp, alGet]
      rw [if_neg (hp ▸ fun hk => h hk.symm), if_neg (hp ▸ fun hk => h hk.symm)]
    · simp [alSet, alGet, hp, ih]

/-- A cache hit: `fetch_route_info` returns the cached triple, leaves the
cache unchanged, and issues no network call. -/
theorem fetch_route_info_hit (net : String → Option PyVal) (c : Cache)
    (cs : String) (t : Triple) (h : alGet c cs = some t) :
    fetch_route_info net c cs = ⟨t, c, 0⟩ := by
  unfold fetch_route_info
  simp [h]

/-- A cache miss on the empty callsign: the sentinel is cached and returned
with no network call. -/
theorem fetch_route_info_miss_empty (net : String → Option PyVal) (c : Cache)
    (h : alGet c "" = none) :
    fetch_route_info net c "" = ⟨sentinelTriple, alSet c "" sentinelTriple, 0⟩ := by
  unfold fetch_route_info
  simp [h, alGet_alSet_self]

/-- A cache miss on a non-empty callsign: one network call is issued and the
`routeLookup` result is cached and returned. -/
theorem fetch_route_info_miss (net : String → Option PyVal) (c : Cache)
    (cs : String) (hcs : cs ≠ "") (h : alGet c cs = none) :
    fetch_route_info net c cs =
      ⟨routeLookup net cs, alSet c cs (routeLookup net cs), 1⟩ := by
  unfold fetch_route_info
  simp [h, hcs, alGet_alSet_self]

/-- On nonnegative rationals, truncation toward zero is the floor. -/
theorem ratTrunc_eq_floor {q : ℚ} (h : 0 ≤ q) : ratTrunc q = ⌊q⌋ := by
  unfold ratTrunc
  rw [Int.tdiv_eq_ediv (Rat.num_nonneg.mpr h) (Int.natCast_nonneg q.den),
    Rat.floor_def]

/-- On negative rationals, truncation toward zero is the ceiling. -/
theorem ratTrunc_eq_ceil {q : ℚ} (h : q < 0) : ratTrunc q = ⌈q⌉ := by
  have h1 : ratTrunc q = -(ratTrunc (-q)) := by
    unfold ratTrunc
    rw [Rat.num_neg_eq_neg_num, Rat.den_neg_eq_den, Int.neg_tdiv, neg_neg]
  rw [h1, ratTrunc_eq_floor (by linarith : (0 : ℚ) ≤ -q)]
  simp [(Int.ceil_neg (a := -q)).symm]

theorem ratTrunc_intCast (n : ℤ) : ratTrunc (n : ℚ) = n := by
  unfold ratTrunc
  rw [Rat.num_intCast, Rat.den_intCast]
  simp [Int.tdiv_one]

/-- After any `fetch_route_info` call, every previously cached callsign is
still cached with its old triple (the cache only grows / overwrites misses). -/
theorem route_cache_mono (net : String → Option PyVal) (c : Cache) (cs k : String)
    (t : Triple) (h : alGet c k = some t) :
    alGet (fetch_route_info net c cs).cache k = some t := by
  by_cases hk : k = cs
  · subst hk
    rw [fetch_route_info_hit net c k t h]
    exact h
  · cases hc : alGet c cs with
    | some t' =>
      rw [fetch_route_info_hit net c cs t' hc]
      exact h
    | none =>
      by_cases hcs : cs = ""
      · subst hcs
        rw [fetch_route_info_miss_empty net c hc]
        show alGet (alSet c "" sentinelTriple) k = some t
        rw [alGet_alSet_ne c "" k sentinelTriple hk]
        exact h
      · rw [fetch_route_info_miss net c cs hcs hc]
        show alGet (alSet c cs (routeLookup net cs)) k = some t
        rw [alGet_alSet_ne c cs k _ hk]
        exact h

/-- Cached callsigns survive any sequence of further `fetch_route_info`
calls. -/
theorem runCalls_cache_mono (net : String → Option PyVal) (css : List String)
    (c : Cache) (k : String) (t : Triple) (h : alGet c k = some t) :
    alGet (runCalls net c css) k = some t := by
  induction css generalizing c with
  | nil => exact h
  | cons cs rest ih => exact ih _ (route_cache_mono net c cs k t h)

/-! ## Claim theorems -/

/-- **C3.** For every callsign string (including `""`), after one
`fetch_route_info` call for that callsign, a second call with the same
callsign issues no network call, returns the same triple as the first call,
and leaves the cache unchanged. -/
theorem route_resolver_second_call_cached (net : String → Option PyVal)
    (c : Cache) (cs : String) :
    (fetch_route_info net (fetch_route_info net c cs).cache cs).calls = 0 ∧
    (fetch_route_info net (fetch_route_info net c cs).cache cs).triple =
      (fetch_route_info net c cs).triple ∧
    (fetch_route_info net (fetch_route_info net c cs).cache cs).cache =
      (fetch_route_info net c cs).cache := by
  cases hc : alGet c cs with
  | some t =>
    rw [fetch_route_info_hit net c cs t hc, fetch_route_info_hit net c cs t hc]
    exact ⟨rfl, rfl, rfl⟩
  | none =>
    by_cases hcs : cs = ""
    · subst hcs
      rw [fetch_route_info_miss_empty net c hc,
        fetch_route_info_hit net _ "" sentinelTriple (alGet_alSet_self c "" _)]
      exact ⟨rfl, rfl, rfl⟩
    · rw [fetch_route_info_miss net c cs hcs hc,
        fetch_route_info_hit net _ cs (routeLookup net cs) (alGet_alSet_self c cs _)]
      exact ⟨rfl, rfl, rfl⟩

/-- The ways a route lookup for callsign `cs` can fail: a transport/decode
error, or a parse exception on the decoded body. -/
def routeFails (net : String → Option PyVal) (cs : String) : Prop :=
  net cs = none ∨ ∃ j e, net cs = some j ∧ parseRouteE j = .error e

/-- **C7.** When a route lookup for an uncached non-empty callsign fails with
a transport or parse error, `fetch_route_info` returns and caches the
all-`"N/A"` sentinel for that callsign (issuing one network call), and after
any sequence of further calls, a later call for that callsign issues no
network call and still returns the sentinel. -/
theorem route_failure_cached_forever (net : String → Option PyVal) (c : Cache)
    (cs : String) (hcs : cs ≠ "") (hmiss : alGet c cs = none)
    (hfail : routeFails net cs) :
    (fetch_route_info net c cs).triple = sentinelTriple ∧
    (fetch_route_info net c cs).calls = 1 ∧
    alGet (fetch_route_info net c cs).cache cs = some sentinelTriple ∧
    ∀ css : List String,
      (fetch_route_info net (runCalls net (fetch_route_info net c cs).cache css) cs).calls = 0 ∧
      (fetch_route_info net (runCalls net (fetch_route_info net c cs).cache css) cs).triple =
        sentinelTriple := by
  have hlook : routeLookup net cs = sentinelTriple := by
    rcases hfail with hnet | ⟨j, e, hnet, hparse⟩
    · simp [routeLookup, hnet]
    · simp [routeLookup, hnet, parseRoute, hparse]
  have hres : fetch_route_info net c cs =
      ⟨sentinelTriple, alSet c cs sentinelTriple, 1⟩ := by
    rw [fetch_route_info_miss net c cs hcs hmiss, hlook]
  refine ⟨by simp [hres], by simp [hres], by simp [hres, alGet_alSet_self], ?_⟩
  intro css
  have hcached : alGet (runCalls net (fetch_route_info net c cs).cache css) cs =
      some sentinelTriple := by
    apply runCalls_cache_mono
    simp [hres, alGet_alSet_self]
  rw [fetch_route_info_hit net _ cs sentinelTriple hcached]
  exact ⟨rfl, rfl⟩

/-- **C7 witness.** Concrete instantiation: callsign `"AAL123"`, an empty
cache, a network that always fails, and two further calls. -/
theorem route_failure_cached_forever_witness :
    ("AAL123" : String) ≠ "" ∧
    alGet ([] : Cache) "AAL123" = none ∧
    routeFails (fun _ => none) "AAL123" ∧
    (fetch_route_info (fun _ => none) [] "AAL123").triple = sentinelTriple ∧
    (fetch_route_info (fun _ => none)
      (runCalls (fun _ => none) (fetch_route_info (fun _ => none) [] "AAL123").cache
        ["DAL5", ""]) "AAL123").calls = 0 := by
  refine ⟨by decide, rfl, Or.inl rfl, ?_, ?_⟩
  · exact (route_failure_cached_forever (fun _ => none) [] "AAL123"
      (by decide) rfl (Or.inl rfl)).1
  · exact ((route_failure_cached_forever (fun _ => none) [] "AAL123"
      (by decide) rfl (Or.inl rfl)).2.2.2 ["DAL5", ""]).1

/-- **C8.** `parse_altitude` returns `0` for every absent/null (`None`),
non-numeric-string, list, or dict input, and the exact integer value for
every integer-valued input: any integer JSON number, and any integer-literal
string (e.g. `"12345" → 12345`, `None → 0`, `"abc" → 0`). -/
theorem parse_altitude_spec :
    parse_altitude .vnone = 0 ∧
    parse_altitude (.vstr "abc") = 0 ∧
    parse_altitude (.vstr "12345") = 12345 ∧
    (∀ n : ℤ, parse_altitude (.vnum (n : ℚ)) = n) ∧
    (∀ s : String, parseIntStr s = none → parse_altitude (.vstr s) = 0) ∧
    (∀ s : String, ∀ n : ℤ, parseIntStr s = some n → parse_altitude (.vstr s) = n) ∧
    (∀ l, parse_altitude (.vlist l) = 0) ∧
    (∀ d, parse_altitude (.vdict d) = 0) := by
  refine ⟨rfl, by decide, by decide, ?_, ?_, ?_, fun l => rfl, fun d => rfl⟩
  · intro n
    simp [parse_altitude, pyInt, ratTrunc_intCast]
  · intro s h
    simp [parse_altitude, pyInt, h]
  · intro s n h
    simp [parse_altitude, pyInt, h]

/-- **C8 witness.** The hypothesis-bearing clauses instantiated: `"x1"` is
not an integer literal and parses to `0`; `"  12345 "` parses to `12345`. -/
theorem parse_altitude_spec_witness :
    parseIntStr "x1" = none ∧ parse_altitude (.vstr "x1") = 0 ∧
    parseIntStr "  12345 " = some 12345 ∧ parse_altitude (.vstr "  12345 ") = 12345 := by
  refine ⟨by decide, parse_altitude_spec.2.2.2.2.1 "x1" (by decide), by decide,
    parse_altitude_spec.2.2.2.2.2.1 "  12345 " 12345 (by decide)⟩

theorem clamp01_nonneg (x : ℚ) : 0 ≤ clamp01 x := le_max_left _ _

theorem clamp01_le_one (x : ℚ) : clamp01 x ≤ 1 := max_le zero_le_one (min_le_left _ _)

theorem clamp01_mono {x y : ℚ} (h : x ≤ y) : clamp01 x ≤ clamp01 y :=
  max_le_max le_rfl (min_le_min le_rfl h)

/-- A scaled clamped channel `int(M * clamp01 x)` stays within `[0, M]`. -/
theorem trunc_clamp_bounds (M : ℤ) (hM : 0 ≤ M) (x : ℚ) :
    0 ≤ ratTrunc ((M : ℚ) * clamp01 x) ∧ ratTrunc ((M : ℚ) * clamp01 x) ≤ M := by
  have h0 : 0 ≤ (M : ℚ) * clamp01 x :=
    mul_nonneg (by exact_mod_cast hM) (clamp01_nonneg x)
  rw [ratTrunc_eq_floor h0]
  refine ⟨Int.floor_nonneg.mpr h0, ?_⟩
  have hle : (M : ℚ) * clamp01 x ≤ (M : ℚ) := by
    have hm : (0 : ℚ) ≤ (M : ℚ) := by exact_mod_cast hM
    have := mul_le_mul_of_nonneg_left (clamp01_le_one x) hm
    simpa using this
  calc ⌊(M : ℚ) * clamp01 x⌋ ≤ ⌊(M : ℚ)⌋ := Int.floor_le_floor hle
    _ = M := Int.floor_intCast M

/-- A scaled clamped channel is monotone in its input. -/
theorem trunc_clamp_mono (M : ℚ) (hM : 0 ≤ M) {x y : ℚ} (h : x ≤ y) :
    ratTrunc (M * clamp01 x) ≤ ratTrunc (M * clamp01 y) := by
  have h0 : 0 ≤ M * clamp01 x := mul_nonneg hM (clamp01_nonneg x)
  have h0' : 0 ≤ M * clamp01 y := mul_nonneg hM (clamp01_nonneg y)
  rw [ratTrunc_eq_floor h0, ratTrunc_eq_floor h0']
  exact Int.floor_le_floor (mul_le_mul_of_nonneg_left (clamp01_mono h) hM)

theorem ratTrunc_ofNat (n : ℕ) : ratTrunc (n : ℚ) = n := by
  have := ratTrunc_intCast (n : ℤ)
  rw [show (((n : ℤ) : ℚ)) = (n : ℚ) by push_cast; ring] at this
  exact_mod_cast this

/-- **C9.** Each color function is a pure function of one numeric input
clamped to `[0,1]` before scaling: the concrete anchor values
`alt_color 0 = (255,0,0)`, `alt_color 40000 = (0,0,0)`,
`alt_color 80000 = (0,0,0)` hold, every computed channel stays in
`[0,255]` and the remaining channels are the constant `0`, and each
function is monotone in its input (the red channels of `alt_color` and
`dist_color` decrease as the input grows; the green channel of
`speed_color` increases). -/
theorem color_functions_spec :
    alt_color 0 = (255, 0, 0) ∧
    alt_color 40000 = (0, 0, 0) ∧
    alt_color 80000 = (0, 0, 0) ∧
    (∀ x : ℚ,
      (0 ≤ (alt_color x).1 ∧ (alt_color x).1 ≤ 255 ∧
        (alt_color x).2.1 = 0 ∧ (alt_color x).2.2 = 0) ∧
      (0 ≤ (dist_color x).1 ∧ (dist_color x).1 ≤ 255 ∧
        (dist_color x).2.1 = 0 ∧ (dist_color x).2.2 = 0) ∧
      ((speed_color x).1 = 0 ∧ 0 ≤ (speed_color x).2.1 ∧
        (speed_color x).2.1 ≤ 255 ∧ (speed_color x).2.2 = 0)) ∧
    (∀ x y : ℚ, x ≤ y →
      (alt_color y).1 ≤ (alt_color x).1 ∧
      (dist_color y).1 ≤ (dist_color x).1 ∧
      (speed_color x).2.1 ≤ (speed_color y).2.1) := by
  refine ⟨?_, ?_, ?_, ?_, ?_⟩
  · unfold alt_color clamp01
    norm_num
    rw [show ((255 : ℚ)) = (((255 : ℤ) : ℚ)) by norm_num, ratTrunc_intCast]
  · unfold alt_color clamp01
    norm_num
    rw [show ((0 : ℚ)) = (((0 : ℤ) : ℚ)) by norm_num, ratTrunc_intCast]
  · unfold alt_color clamp01
    norm_num
    rw [show ((0 : ℚ)) = (((0 : ℤ) : ℚ)) by norm_num, ratTrunc_intCast]
  · intro x
    refine ⟨⟨(trunc_clamp_bounds 255 (by norm_num) _).1,
        (trunc_clamp_bounds 255 (by norm_num) _).2, rfl, rfl⟩,
      ⟨(trunc_clamp_bounds 255 (by norm_num) _).1,
        (trunc_clamp_bounds 255 (by norm_num) _).2, rfl, rfl⟩,
      rfl, (trunc_clamp_bounds 200 (by norm_num) _).1,
      le_trans (trunc_clamp_bounds 200 (by norm_num) _).2 (by norm_num), rfl⟩
  · intro x y h
    refine ⟨?_, ?_, ?_⟩
    · exact trunc_clamp_mono 255 (by norm_num)
        (by have := (div_le_div_iff_of_pos_right (c := (40000 : ℚ)) (by norm_num)).mpr h; linarith)
    · exact trunc_clamp_mono 255 (by norm_num)
        (by have := (div_le_div_iff_of_pos_right (c := (100 : ℚ)) (by norm_num)).mpr h; linarith)
    · exact trunc_clamp_mono 200 (by norm_num)
        (by have := (div_le_div_iff_of_pos_right (c := (600 : ℚ)) (by norm_num)).mpr h; linarith)

/-- **C9 witness.** The monotonicity clause instantiated at `0 ≤ 1`. -/
theorem color_functions_spec_witness :
    (0 : ℚ) ≤ 1 ∧
    (alt_color 1).1 ≤ (alt_color 0).1 ∧
    (dist_color 1).1 ≤ (dist_color 0).1 ∧
    (speed_color 0).2.1 ≤ (speed_color 1).2.1 := by
  have h := color_functions_spec.2.2.2.2 0 1 (by norm_num)
  exact ⟨by norm_num, h.1, h.2.1, h.2.2⟩

/-- Inversion of a successful `drawCompute` on a dict-headed list: the
ground-speed conversion and the coordinate selection both succeeded and
produced the corresponding fields of the result. -/
theorem drawCompute_fields {d : List (String × PyVal)} {rest : List PyVal}
    {o : DrawOut} (h : drawCompute (.vdict d :: rest) = .ok o) :
    pyInt (if ((alGet d "gs").getD .vnone).truthy then (alGet d "gs").getD .vnone
           else .vnum 0) = .ok o.speed ∧
    (if ((alGet d "lat").getD .vnone).truthy && ((alGet d "lon").getD .vnone).truthy then
       (pyNum ((alGet d "lat").getD .vnone)).bind fun a =>
       (pyNum ((alGet d "lon").getD .vnone)).bind fun b => Except.ok (some (a, b))
     else Except.ok none) = .ok o.coords := by
  simp only [drawCompute, List.head?_cons, exbind_ok_left, pyGetD] at h
  rcases exbind_ok h with ⟨cs, hcs, h⟩
  rcases exbind_ok h with ⟨sp, hsp, h⟩
  rcases exbind_ok h with ⟨co, hco, h⟩
  rcases exbind_ok h with ⟨dom, hdom, h⟩
  injection h with h
  subst h
  exact ⟨hsp, hco⟩

theorem ratTrunc_zero : ratTrunc 0 = 0 := by decide

/-- **C10.** In `draw`, the ground speed is `int(ac.get("gs") or 0)`: a
numeric ground speed `q` is truncated toward zero to the integer `ratTrunc q`
(floor for nonnegative, ceiling for negative values) before the `×1.15078`
mph conversion, and a ground speed that is absent, `None`, `0`, or the empty
string renders as `0` knots and `0` mph. -/
theorem draw_speed_spec (d : List (String × PyVal)) (rest : List PyVal)
    (o : DrawOut) (h : drawCompute (.vdict d :: rest) = .ok o) :
    (∀ q : ℚ, alGet d "gs" = some (.vnum q) →
      o.speed = ratTrunc q ∧
      DrawOut.speed_mph o = (ratTrunc q : ℚ) * 1.15078 ∧
      (0 ≤ q → ratTrunc q = ⌊q⌋) ∧ (q < 0 → ratTrunc q = ⌈q⌉)) ∧
    ((alGet d "gs" = none ∨ alGet d "gs" = some .vnone ∨
      alGet d "gs" = some (.vnum 0) ∨ alGet d "gs" = some (.vstr "")) →
      o.speed = 0 ∧ DrawOut.speed_mph o = 0) := by
  have hsp := (drawCompute_fields h).1
  constructor
  · intro q hq
    rw [hq] at hsp
    have hspeed : o.speed = ratTrunc q := by
      by_cases hq0 : q = 0
      · subst hq0
        simp [PyVal.truthy, pyInt, Except.ok.injEq] at hsp
        exact hsp.symm
      · simp [PyVal.truthy, hq0, pyInt, Except.ok.injEq] at hsp
        exact hsp.symm
    refine ⟨hspeed, ?_, fun h0 => ratTrunc_eq_floor h0, fun h0 => ratTrunc_eq_ceil h0⟩
    rw [DrawOut.speed_mph, hspeed]
  · intro hcase
    have hspeed : o.speed = 0 := by
      rcases hcase with hc | hc | hc | hc <;>
        · rw [hc] at hsp
          simp [PyVal.truthy, pyInt, ratTrunc_zero, Except.ok.injEq] at hsp
          exact hsp.symm
    refine ⟨hspeed, ?_⟩
    rw [DrawOut.speed_mph, hspeed]
    norm_num

/-- **C10 witness.** A record with ground speed `5/2` knots: the rendered
speed is `int(5/2) = 2` and the mph value is `2 * 1.15078`. -/
theorem draw_speed_spec_witness :
    drawCompute [.vdict [("gs", .vnum (mkRat 5 2))]] =
      .ok ⟨"N/A", 0, 2, none, NA, NA, NA, none⟩ ∧
    alGet [("gs", PyVal.vnum (mkRat 5 2))] "gs" = some (.vnum (mkRat 5 2)) ∧
    (⟨"N/A", 0, 2, none, NA, NA, NA, none⟩ : DrawOut).speed = ratTrunc (mkRat 5 2) ∧
    DrawOut.speed_mph ⟨"N/A", 0, 2, none, NA, NA, NA, none⟩ =
      (ratTrunc (mkRat 5 2) : ℚ) * 1.15078 := by
  have h1 : drawCompute [.vdict [("gs", .vnum (mkRat 5 2))]] =
      .ok ⟨"N/A", 0, 2, none, NA, NA, NA, none⟩ := by rfl
  have h := draw_speed_spec _ _ _ h1
  exact ⟨h1, rfl, (h.1 (mkRat 5 2) rfl).1, (h.1 (mkRat 5 2) rfl).2.1⟩

/-- `atan2 y x` is positive when `y > 0` and `x ≥ 0` (the case reached by
`haversine` whenever the two points differ). -/
theorem atan2_pos {y x : ℝ} (hy : 0 < y) (hx : 0 ≤ x) : 0 < atan2 y x := by
  unfold atan2
  rcases lt_or_eq_of_le hx with h | h
  · rw [if_pos h]
    have := Real.arctan_strictMono (div_pos hy h)
    rwa [Real.arctan_zero] at this
  · rw [if_neg (by rw [← h]; exact lt_irrefl 0), if_pos h.symm, if_pos hy]
    positivity

/-- The haversine distance from the home location `(31, -97)` to the point
`(0, 50)` is strictly positive. -/
theorem haversine_home_pos : 0 < haversine 31 (-97) 0 50 := by
  have hpi := Real.pi_pos
  have hs : 0 < Real.sin (31 * Real.pi / 360) :=
    Real.sin_pos_of_pos_of_lt_pi (by positivity) (by linarith)
  have hc : 0 < Real.cos (31 * Real.pi / 180) := by
    apply Real.cos_pos_of_mem_Ioo
    constructor
    · linarith
    · linarith
  simp only [haversine, radians]
  have h2 : Real.sin (((0 : ℝ) - 31) * Real.pi / 180 / 2) ^ 2 =
      Real.sin (31 * Real.pi / 360) ^ 2 := by
    have h1 : ((0 : ℝ) - 31) * Real.pi / 180 / 2 = -(31 * Real.pi / 360) := by ring
    rw [h1, Real.sin_neg]
    ring
  have h3 : Real.cos ((0 : ℝ) * Real.pi / 180) = 1 := by norm_num
  have hA : 0 < Real.sin (((0 : ℝ) - 31) * Real.pi / 180 / 2) ^ 2 +
      Real.cos (31 * Real.pi / 180) * Real.cos ((0 : ℝ) * Real.pi / 180) *
        Real.sin ((50 - -(97 : ℝ)) * Real.pi / 180 / 2) ^ 2 := by
    rw [h2, h3]
    have h4 : (0 : ℝ) ≤ Real.cos (31 * Real.pi / 180) * 1 *
        Real.sin ((50 - -(97 : ℝ)) * Real.pi / 180 / 2) ^ 2 := by positivity
    nlinarith [pow_pos hs 2]
  exact mul_pos (by norm_num) (atan2_pos (Real.sqrt_pos.mpr hA) (Real.sqrt_nonneg _))

/-- **C2 (amended).** In `draw`, the displayed distance is the haversine
great-circle distance (Earth radius 6371 km) from the home coordinates to
the aircraft's coordinates whenever both coordinates are present **and
nonzero**, is `0` when either coordinate is missing, null, **or equal to
`0`** (the code tests Python truthiness, `if lat and lon`, not presence),
and is converted to miles by multiplying by `0.621371`. -/
theorem draw_distance_spec (d : List (String × PyVal)) (rest : List PyVal)
    (o : DrawOut) (h : drawCompute (.vdict d :: rest) = .ok o) :
    (∀ a b : ℚ, alGet d "lat" = some (.vnum a) → alGet d "lon" = some (.vnum b) →
      a ≠ 0 → b ≠ 0 →
      o.coords = some (a, b) ∧
      DrawOut.dist_km HOME_COORDS o = haversine 31 (-97) (a : ℝ) (b : ℝ) ∧
      DrawOut.dist_mi HOME_COORDS o =
        haversine 31 (-97) (a : ℝ) (b : ℝ) * 0.621371) ∧
    ((alGet d "lat" = none ∨ alGet d "lat" = some .vnone ∨
      alGet d "lat" = some (.vnum 0) ∨ alGet d "lon" = none ∨
      alGet d "lon" = some .vnone ∨ alGet d "lon" = some (.vnum 0)) →
      o.coords = none ∧ DrawOut.dist_km HOME_COORDS o = 0 ∧
      DrawOut.dist_mi HOME_COORDS o = 0) := by
  have hco := (drawCompute_fields h).2
  constructor
  · intro a b hla hlo ha hb
    rw [hla, hlo] at hco
    simp only [Option.getD_some] at hco
    have hcond : ((PyVal.vnum a).truthy && (PyVal.vnum b).truthy) = true := by
      simp [PyVal.truthy, ha, hb]
    rw [if_pos hcond] at hco
    simp only [pyNum, exbind_ok_left] at hco
    have hcoords : o.coords = some (a, b) := (Except.ok.inj hco).symm
    have hkm : DrawOut.dist_km HOME_COORDS o = haversine 31 (-97) (a : ℝ) (b : ℝ) := by
      rw [DrawOut.dist_km, hcoords]
      show haversine ((31 : ℚ) : ℝ) ((-97 : ℚ) : ℝ) (a : ℝ) (b : ℝ) = _
      norm_num
    refine ⟨hcoords, hkm, ?_⟩
    rw [DrawOut.dist_mi, hkm]
  · intro hcase
    have hnone : ∀ la lo : PyVal, (alGet d "lat").getD .vnone = la →
        (alGet d "lon").getD .vnone = lo → (la.truthy && lo.truthy) = false →
        o.coords = none := by
      intro la lo hla hlo hfalse
      rw [hla, hlo, if_neg (by simp [hfalse])] at hco
      exact (Except.ok.inj hco).symm
    have hcoords : o.coords = none := by
      rcases hcase with hc | hc | hc | hc | hc | hc
      · exact hnone _ _ (by rw [hc]) rfl (by simp [PyVal.truthy])
      · exact hnone _ _ (by rw [hc]) rfl (by simp [PyVal.truthy])
      · exact hnone _ _ (by rw [hc]) rfl (by simp [PyVal.truthy])
      · exact hnone _ _ rfl (by rw [hc]) (by simp [PyVal.truthy])
      · exact hnone _ _ rfl (by rw [hc]) (by simp [PyVal.truthy])
      · exact hnone _ _ rfl (by rw [hc]) (by simp [PyVal.truthy])
    refine ⟨hcoords, ?_, ?_⟩
    · rw [DrawOut.dist_km, hcoords]
    · rw [DrawOut.dist_mi, DrawOut.dist_km, hcoords]
      norm_num

/-- **C2 witness.** A record with both coordinates present and nonzero
(`lat = 10`, `lon = 20`): the truthy branch is taken and the displayed
distance is the haversine distance in miles. -/
theorem draw_distance_spec_witness :
    drawCompute [.vdict [("lat", .vnum 10), ("lon", .vnum 20)]] =
      .ok ⟨"N/A", 0, 0, some (10, 20), NA, NA, NA, none⟩ ∧
    (10 : ℚ) ≠ 0 ∧ (20 : ℚ) ≠ 0 ∧
    DrawOut.dist_mi HOME_COORDS ⟨"N/A", 0, 0, some (10, 20), NA, NA, NA, none⟩ =
      haversine 31 (-97) ((10 : ℚ) : ℝ) ((20 : ℚ) : ℝ) * 0.621371 := by
  have h1 : drawCompute [.vdict [("lat", .vnum 10), ("lon", .vnum 20)]] =
      .ok ⟨"N/A", 0, 0, some (10, 20), NA, NA, NA, none⟩ := by rfl
  exact ⟨h1, by norm_num, by norm_num,
    ((draw_distance_spec _ _ _ h1).1 10 20 rfl rfl (by norm_num) (by norm_num)).2.2⟩

/-- **C2 counterexample.** An aircraft whose coordinates are both present,
with `lat = 0` (on the equator) and `lon = 50`: the claim as stated demands
the displayed distance be the (strictly positive) haversine distance in
miles, but the code's truthiness test makes it `0`. -/
theorem draw_distance_claim_counterexample :
    alGet [("flight", PyVal.vstr "TEST1"), ("lat", PyVal.vnum 0),
      ("lon", PyVal.vnum 50)] "lat" = some (.vnum 0) ∧
    alGet [("flight", PyVal.vstr "TEST1"), ("lat", PyVal.vnum 0),
      ("lon", PyVal.vnum 50)] "lon" = some (.vnum 50) ∧
    drawCompute [.vdict [("flight", PyVal.vstr "TEST1"), ("lat", PyVal.vnum 0),
      ("lon", PyVal.vnum 50)]] = .ok ⟨"TEST1", 0, 0, none, NA, NA, NA, none⟩ ∧
    DrawOut.dist_mi HOME_COORDS ⟨"TEST1", 0, 0, none, NA, NA, NA, none⟩ = 0 ∧
    0 < haversine 31 (-97) ((0 : ℚ) : ℝ) ((50 : ℚ) : ℝ) * 0.621371 := by
  refine ⟨rfl, rfl, by rfl, ?_, ?_⟩
  · simp [DrawOut.dist_mi, DrawOut.dist_km]
  · have hcast : haversine 31 (-97) ((0 : ℚ) : ℝ) ((50 : ℚ) : ℝ) =
        haversine 31 (-97) 0 50 := by norm_num
    rw [hcast]
    exact mul_pos haversine_home_pos (by norm_num)

/-- Inversion of a successful loop iteration: the new state and output are
determined by the timer test and by whether the enrichment result was empty. -/
theorem runIteration_inv (net : String → Option PyVal) (resp : Option PyVal)
    (st st' : AppState) (now : ℚ) (out : Option DrawOut)
    (h : runIteration net resp st now = .ok (st', out)) :
    ∃ ec : List PyVal × Cache,
      (if ec.1.isEmpty then out = none else out ≠ none) ∧
      (let st1 := if now - st.last_switch ≥ 300 then
          { st with idx := (st.idx + 1) % LOCATIONS.length, last_switch := now }
        else st
       if ec.1.isEmpty then
         st' = { idx := (st1.idx + 1) % LOCATIONS.length, last_switch := now,
                 cache := ec.2 }
       else st' = { st1 with cache := ec.2 }) := by
  simp only [runIteration] at h
  rcases exbind_ok h with ⟨items, hit, h⟩
  rcases exbind_ok h with ⟨ec, hec, h⟩
  refine ⟨ec, ?_⟩
  by_cases hemp : ec.1.isEmpty
  · rw [if_pos hemp] at h
    have h2 := Except.ok.inj h
    injection h2 with h3 h4
    simp only [hemp, if_true]
    exact ⟨h4.symm, h3.symm⟩
  · rw [if_neg hemp] at h
    rcases exbind_ok h with ⟨o, ho, h⟩
    have h2 := Except.ok.inj h
    injection h2 with h3 h4
    simp only [hemp, if_false]
    refine ⟨by rw [← h4]; exact Option.some_ne_none o, h3.symm⟩

/-- **C4.** In one loop iteration: with an elapsed time of at least 300
seconds since the last switch, the area index advances circularly exactly
once (modulo the area-list length) and the timer resets; with less elapsed
time and a non-empty enrichable result, the index and timer are unchanged;
when the cycle produces no enrichable aircraft the index advances
immediately regardless of elapsed time (once more on top of any timed
advance). -/
theorem loop_rotation_spec (net : String → Option PyVal) (resp : Option PyVal)
    (st st' : AppState) (now : ℚ) (out : Option DrawOut)
    (h : runIteration net resp st now = .ok (st', out)) :
    (now - st.last_switch ≥ 300 → out ≠ none →
      st'.idx = (st.idx + 1) % LOCATIONS.length ∧ st'.last_switch = now) ∧
    (¬(now - st.last_switch ≥ 300) → out ≠ none →
      st'.idx = st.idx ∧ st'.last_switch = st.last_switch) ∧
    (¬(now - st.last_switch ≥ 300) → out = none →
      st'.idx = (st.idx + 1) % LOCATIONS.length ∧ st'.last_switch = now) ∧
    (now - st.last_switch ≥ 300 → out = none →
      st'.idx = (st.idx + 2) % LOCATIONS.length ∧ st'.last_switch = now) := by
  obtain ⟨ec, hout, hst⟩ := runIteration_inv net resp st st' now out h
  by_cases hemp : ec.1.isEmpty <;> by_cases hcond : now - st.last_switch ≥ 300 <;>
    simp only [hemp, hcond, if_true, if_false, if_pos, if_neg, not_false_iff] at hout hst
  · -- empty result, timer fired: double advance
    refine ⟨fun _ hne => absurd hout hne, fun hc => absurd hcond hc,
      fun hc => absurd hcond hc, fun _ _ => ?_⟩
    rw [hst]
    refine ⟨?_, rfl⟩
    show ((st.idx + 1) % LOCATIONS.length + 1) % LOCATIONS.length =
      (st.idx + 2) % LOCATIONS.length
    simp only [LOCATIONS, List.length_cons, List.length_nil]
    omega
  · -- empty result, timer not fired: single skip advance
    refine ⟨fun hc => absurd hc hcond, fun _ hne => absurd hout hne,
      fun _ _ => ?_, fun hc => absurd hc hcond⟩
    rw [hst]
    exact ⟨rfl, rfl⟩
  · -- non-empty result, timer fired: single timed advance
    refine ⟨fun _ _ => ?_, fun hc => absurd hcond hc, fun hc => absurd hcond hc,
      fun _ h0 => absurd h0 hout⟩
    rw [hst]
    exact ⟨rfl, rfl⟩
  · -- non-empty result, timer not fired: no advance
    refine ⟨fun hc => absurd hc hcond, fun _ _ => ?_, fun _ h0 => absurd h0 hout,
      fun hc => absurd hc hcond⟩
    rw [hst]
    exact ⟨rfl, rfl⟩

/-- **C4 witness.** From index 0 with 400 s elapsed and an empty fetch, the
iteration performs the timed advance and the skip advance: the index becomes
`(0 + 2) % 3 = 2`. -/
theorem loop_rotation_spec_witness :
    runIteration (fun _ => none) none ⟨0, 0, []⟩ 400 = .ok (⟨2, 400, []⟩, none) ∧
    (⟨2, 400, []⟩ : AppState).idx = (0 + 2) % LOCATIONS.length ∧
    (400 : ℚ) - (0 : ℚ) ≥ 300 := by
  have hc : ((400 : ℚ) - (0 : ℚ) ≥ 300) := by norm_num
  have h1 : runIteration (fun _ => none) none ⟨0, 0, []⟩ 400 =
      .ok (⟨2, 400, []⟩, none) := by
    simp only [runIteration, if_pos hc]
    rfl
  exact ⟨h1,
    ((loop_rotation_spec _ _ _ _ _ _ h1).2.2.2 hc rfl).1.trans (by rfl) ▸ rfl, hc⟩

/-- **C5.** When a cycle produces no enrichable aircraft (the `none`
rendering output), the skip-forward advance also resets the rotation
timestamp to the current time, and the index advances even when fewer than
300 seconds have elapsed — so consecutive empty-result iterations rotate
faster than the nominal 300-second interval. -/
theorem loop_skip_resets_timer (net : String → Option PyVal) (resp : Option PyVal)
    (st st' : AppState) (now : ℚ)
    (h : runIteration net resp st now = .ok (st', none)) :
    st'.last_switch = now ∧
    (now - st.last_switch < 300 → st'.idx = (st.idx + 1) % LOCATIONS.length) := by
  obtain ⟨ec, hout, hst⟩ := runIteration_inv net resp st st' now none h
  by_cases hemp : ec.1.isEmpty
  · simp only [hemp, if_true] at hst
    by_cases hcond : now - st.last_switch ≥ 300
    · simp only [hcond, if_pos] at hst
      rw [hst]
      exact ⟨rfl, fun hlt => absurd hcond (not_le.mpr hlt)⟩
    · simp only [hcond, if_neg, not_false_iff] at hst
      rw [hst]
      exact ⟨rfl, fun _ => rfl⟩
  · simp only [hemp, if_false] at hout
    exact absurd rfl hout

/-- **C5 witness.** From index 0 with only 100 s elapsed and an empty fetch:
the skip advance still fires, the index moves to 1 and the timestamp resets
to 100. -/
theorem loop_skip_resets_timer_witness :
    runIteration (fun _ => none) none ⟨0, 0, []⟩ 100 = .ok (⟨1, 100, []⟩, none) ∧
    (100 : ℚ) - (0 : ℚ) < 300 ∧
    (⟨1, 100, []⟩ : AppState).last_switch = 100 ∧
    (⟨1, 100, []⟩ : AppState).idx = (0 + 1) % LOCATIONS.length := by
  have hc : ¬((100 : ℚ) - (0 : ℚ) ≥ 300) := by norm_num
  have h1 : runIteration (fun _ => none) none ⟨0, 0, []⟩ 100 =
      .ok (⟨1, 100, []⟩, none) := by
    simp only [runIteration, if_neg hc]
    rfl
  have h := loop_skip_resets_timer _ _ _ _ _ h1
  exact ⟨h1, by norm_num, h.1, h.2 (by norm_num)⟩

/-- **C6 (amended).** `fetch_aircraft` is total (never raises) and returns
at most `MAX_AIRCRAFT = 20` elements. A failed or non-JSON response, a
non-object body, and a body whose `"ac"` value is not sliceable all yield
the empty list; a list-valued `"ac"` yields its first ≤ 20 entries — a
prefix of the upstream list in upstream order. However, a **string**-valued
`"ac"` is returned (truncated to 20 characters) as a string, not converted
to the empty list: the try/except only converts payloads that raise. -/
theorem fetch_aircraft_spec (resp : Option PyVal) :
    fetchCount (fetch_aircraft resp) ≤ MAX_AIRCRAFT ∧
    (resp = none → fetch_aircraft resp = .vlist []) ∧
    (∀ body, resp = some body → (∀ d, body ≠ .vdict d) →
      fetch_aircraft resp = .vlist []) ∧
    (∀ d l, resp = some (.vdict d) → (alGet d "ac").getD (.vlist []) = .vlist l →
      fetch_aircraft resp = .vlist (l.take MAX_AIRCRAFT) ∧
      ∃ tail, l = l.take MAX_AIRCRAFT ++ tail) ∧
    (∀ d s, resp = some (.vdict d) → (alGet d "ac").getD (.vlist []) = .vstr s →
      fetch_aircraft resp = .vstr ⟨s.data.take MAX_AIRCRAFT⟩) ∧
    (∀ d v, resp = some (.vdict d) → (alGet d "ac").getD (.vlist []) = v →
      (∀ l, v ≠ .vlist l) → (∀ s, v ≠ .vstr s) →
      fetch_aircraft resp = .vlist []) := by
  refine ⟨?_, ?_, ?_, ?_, ?_, ?_⟩
  · cases resp with
    | none => simp [fetch_aircraft, fetchCount, MAX_AIRCRAFT]
    | some body =>
      cases body with
      | vdict d =>
        cases hv : (alGet d "ac").getD (.vlist []) with
        | vlist l =>
          simp [fetch_aircraft, pyGetD, hv, pySlice20, fetchCount]
        | vstr s =>
          simp [fetch_aircraft, pyGetD, hv, pySlice20, fetchCount]
        | vnone => simp [fetch_aircraft, pyGetD, hv, pySlice20, fetchCount]
        | vbool b => simp [fetch_aircraft, pyGetD, hv, pySlice20, fetchCount]
        | vnum q => simp [fetch_aircraft, pyGetD, hv, pySlice20, fetchCount]
        | vdict d' => simp [fetch_aircraft, pyGetD, hv, pySlice20, fetchCount]
      | vnone => simp [fetch_aircraft, pyGetD, fetchCount]
      | vbool b => simp [fetch_aircraft, pyGetD, fetchCount]
      | vnum q => simp [fetch_aircraft, pyGetD, fetchCount]
      | vstr s => simp [fetch_aircraft, pyGetD, fetchCount]
      | vlist l => simp [fetch_aircraft, pyGetD, fetchCount]
  · intro h
    rw [h]
    rfl
  · intro body h hnd
    rw [h]
    cases body with
    | vdict d => exact absurd rfl (hnd d)
    | vnone => rfl
    | vbool b => rfl
    | vnum q => rfl
    | vstr s => rfl
    | vlist l => rfl
  · intro d l h hv
    rw [h]
    refine ⟨by simp [fetch_aircraft, pyGetD, hv, pySlice20], l.drop MAX_AIRCRAFT,
      (List.take_append_drop _ _).symm⟩
  · intro d s h hv
    rw [h]
    simp [fetch_aircraft, pyGetD, hv, pySlice20]
  · intro d v h hv hnl hns
    rw [h]
    cases v with
    | vlist l => exact absurd rfl (hnl l)
    | vstr s => exact absurd rfl (hns s)
    | vnone => simp [fetch_aircraft, pyGetD, hv, pySlice20]
    | vbool b => simp [fetch_aircraft, pyGetD, hv, pySlice20]
    | vnum q => simp [fetch_aircraft, pyGetD, hv, pySlice20]
    | vdict d' => simp [fetch_aircraft, pyGetD, hv, pySlice20]

/-- **C6 witness.** A well-formed body with one aircraft entry: the fetch
returns that one-element prefix, within the 20-entry bound. -/
theorem fetch_aircraft_spec_witness :
    fetch_aircraft (some (.vdict [("ac", .vlist [.vnone])])) = .vlist [.vnone] ∧
    fetchCount (fetch_aircraft (some (.vdict [("ac", .vlist [.vnone])]))) ≤
      MAX_AIRCRAFT := by
  refine ⟨?_, (fetch_aircraft_spec _).1⟩
  exact ((fetch_aircraft_spec _).2.2.2.1 [("ac", .vlist [.vnone])] [.vnone]
    rfl rfl).1.trans (by rfl)

/-- **C6 counterexample.** The malformed body whose `"ac"` value is the
string `"hello"`: the claim requires the empty list, but `fetch_aircraft`
returns the (sliced) string itself — `"hello"[:20]` raises nothing, so the
except-clause never fires. -/
theorem fetch_aircraft_claim_counterexample :
    fetch_aircraft (some (.vdict [("ac", .vstr "hello")])) = .vstr "hello" ∧
    fetch_aircraft (some (.vdict [("ac", .vstr "hello")])) ≠ .vlist [] := by
  constructor
  · rfl
  · intro h
    exact PyVal.noConfusion h

theorem alGet_of_all {α : Type} (p : String × α → Bool) (c : List (String × α))
    (k : String) (t : α) (hall : c.all p = true) (hget : alGet c k = some t) :
    p (k, t) = true := by
  induction c with
  | nil => exact absurd hget (by simp [alGet])
  | cons hd tl ih =>
    simp only [List.all_cons, Bool.and_eq_true] at hall
    by_cases hk : hd.1 = k
    · have : alGet (hd :: tl) k = some hd.2 := by
        obtain ⟨k', v'⟩ := hd
        simp only [alGet, if_pos hk]
      rw [this] at hget
      obtain rfl := Option.some.inj hget
      rw [← hk]
      exact hall.1
    · have : alGet (hd :: tl) k = alGet tl k := by
        obtain ⟨k', v'⟩ := hd
        simp only [alGet, if_neg hk]
      rw [this] at hget
      exact ih hall.2 hget

theorem cacheOk_alSet (c : Cache) (k : String) (t : Triple)
    (hc : cacheOk c = true) (ht : k ≠ "" ∨ pyEqStr t.1 "N/A" = true)
    (hh : hashablePy t.1 = true) : cacheOk (alSet c k t) = true := by
  have hpair1 : (k != "" || pyEqStr t.1 "N/A") = true := by
    rcases ht with h | h
    · simp [h]
    · simp [h]
  have hpair : ((k != "" || pyEqStr t.1 "N/A") && hashablePy t.1) = true := by
    simp [hpair1, hh]
  induction c with
  | nil => simp [cacheOk, alSet, hpair1, hh]
  | cons hd tl ih =>
    simp only [cacheOk, List.all_cons, Bool.and_eq_true] at hc
    by_cases hk : hd.1 = k
    · obtain ⟨k', v'⟩ := hd
      simp only [alSet, if_pos hk, cacheOk, List.all_cons, Bool.and_eq_true]
      refine ⟨?_, hc.2⟩
      simp only at hk
      rw [hk]
      exact ⟨hpair1, hh⟩
    · obtain ⟨k', v'⟩ := hd
      simp only [alSet, if_neg hk, cacheOk, List.all_cons, Bool.and_eq_true]
      exact ⟨hc.1, ih hc.2⟩

/-- The triple returned by `fetch_route_info` has a hashable airline, the
cache stays well-formed, and the empty callsign always resolves to the
`"N/A"` airline. -/
theorem routeTriple_props (net : String → Option PyVal) (c : Cache) (cs : String)
    (hnet : netOk net) (hc : cacheOk c = true) :
    hashablePy (fetch_route_info net c cs).triple.1 = true ∧
    cacheOk (fetch_route_info net c cs).cache = true ∧
    (cs = "" → pyEqStr (fetch_route_info net c cs).triple.1 "N/A" = true) := by
  cases hget : alGet c cs with
  | some t =>
    rw [fetch_route_info_hit net c cs t hget]
    have hp := alGet_of_all _ c cs t hc hget
    simp only [Bool.and_eq_true, Bool.or_eq_true] at hp
    refine ⟨hp.2, hc, fun hcs => ?_⟩
    rcases hp.1 with h | h
    · subst hcs
      simp at h
    · exact h
  | none =>
    by_cases hcs : cs = ""
    · subst hcs
      rw [fetch_route_info_miss_empty net c hget]
      refine ⟨rfl, ?_, fun _ => rfl⟩
      exact cacheOk_alSet c "" sentinelTriple hc (Or.inr rfl) rfl
    · rw [fetch_route_info_miss net c cs hcs hget]
      have hh : hashablePy (routeLookup net cs).1 = true := by
        unfold routeLookup
        cases hn : net cs with
        | none => rfl
        | some j => exact hnet cs j hn
      exact ⟨hh, cacheOk_alSet c cs _ hc (Or.inl hcs) hh, fun h => absurd h hcs⟩

theorem pySlice20_shape {v r : PyVal} (h : pySlice20 v = .ok r) :
    (∃ l, r = .vlist l) ∨ ∃ s, r = .vstr s := by
  cases v with
  | vlist l => exact Or.inl ⟨l.take MAX_AIRCRAFT, (Except.ok.inj h).symm⟩
  | vstr s => exact Or.inr ⟨⟨s.data.take MAX_AIRCRAFT⟩, (Except.ok.inj h).symm⟩
  | vnone => exact absurd h (by simp [pySlice20])
  | vbool b => exact absurd h (by simp [pySlice20])
  | vnum q => exact absurd h (by simp [pySlice20])
  | vdict d => exact absurd h (by simp [pySlice20])

/-- `fetch_aircraft` only returns lists or strings, so iterating over its
result never raises and yields `pyIterL` of it. -/
theorem pyIter_fetch (resp : Option PyVal) :
    pyIter (fetch_aircraft resp) = .ok (pyIterL (fetch_aircraft resp)) := by
  have hshape : (∃ l, fetch_aircraft resp = .vlist l) ∨
      ∃ s, fetch_aircraft resp = .vstr s := by
    cases resp with
    | none => exact Or.inl ⟨[], rfl⟩
    | some body =>
      have heq : fetch_aircraft (some body) =
          (match (pyGetD body "ac" (.vlist [])).bind pySlice20 with
           | .ok r => r
           | .error _ => .vlist []) := rfl
      rw [heq]
      cases hres : (pyGetD body "ac" (.vlist [])).bind pySlice20 with
      | error e => exact Or.inl ⟨[], rfl⟩
      | ok r =>
        obtain ⟨acv, hacv, hsl⟩ := exbind_ok hres
        exact pySlice20_shape hsl
  rcases hshape with ⟨l, hl⟩ | ⟨s, hs⟩
  · rw [hl]; rfl
  · rw [hs]; rfl

/-- A `drawSafe` record makes every step of `drawCompute` succeed. -/
theorem drawCompute_ok_of_drawSafe (e : PyVal) (rest : List PyVal)
    (hs : drawSafe e = true) : ∃ o, drawCompute (e :: rest) = .ok o := by
  cases e with
  | vdict d =>
    simp only [drawSafe, Bool.and_eq_true] at hs
    obtain ⟨⟨⟨⟨hfl, hgs⟩, hlat⟩, hlon⟩, hair⟩ := hs
    simp only [drawCompute, List.head?_cons, exbind_ok_left, pyGetD]
    have hstrip : ∃ cs, pyStrip ((alGet d "flight").getD NA) = .ok cs := by
      cases hg : alGet d "flight" with
      | none => exact ⟨strTrim "N/A", rfl⟩
      | some v =>
        rw [hg] at hfl
        cases v with
        | vstr s => exact ⟨strTrim s, rfl⟩
        | vnone => exact absurd hfl (by simp [fieldOk])
        | vbool b => exact absurd hfl (by simp [fieldOk])
        | vnum q => exact absurd hfl (by simp [fieldOk])
        | vlist l => exact absurd hfl (by simp [fieldOk])
        | vdict d' => exact absurd hfl (by simp [fieldOk])
    obtain ⟨cs, hcs⟩ := hstrip
    rw [hcs]
    simp only [exbind_ok_left]
    have hint : ∃ n, pyInt (if ((alGet d "gs").getD .vnone).truthy
        then (alGet d "gs").getD .vnone else .vnum 0) = .ok n := by
      cases hg : alGet d "gs" with
      | none => exact ⟨0, rfl⟩
      | some v =>
        rw [hg] at hgs
        cases v with
        | vnone => exact ⟨0, rfl⟩
        | vnum q =>
          by_cases hq : q = 0
          · subst hq
            exact ⟨0, rfl⟩
          · refine ⟨ratTrunc q, ?_⟩
            rw [if_pos (by simp [PyVal.truthy, hq])]
            rfl
        | vbool b => exact absurd hgs (by simp [fieldOk, numOrNone])
        | vstr s => exact absurd hgs (by simp [fieldOk, numOrNone])
        | vlist l => exact absurd hgs (by simp [fieldOk, numOrNone])
        | vdict d' => exact absurd hgs (by simp [fieldOk, numOrNone])
    obtain ⟨n, hn⟩ := hint
    rw [hn]
    simp only [exbind_ok_left]
    have hcoords : ∃ co, (if ((alGet d "lat").getD .vnone).truthy &&
        ((alGet d "lon").getD .vnone).truthy then
          (pyNum ((alGet d "lat").getD .vnone)).bind fun a =>
          (pyNum ((alGet d "lon").getD .vnone)).bind fun b => Except.ok (some (a, b))
        else Except.ok none) = .ok co := by
      by_cases hcond : (((alGet d "lat").getD .vnone).truthy &&
          ((alGet d "lon").getD .vnone).truthy) = true
      · rw [if_pos hcond]
        simp only [Bool.and_eq_true] at hcond
        have hlat' : ∃ a, pyNum ((alGet d "lat").getD .vnone) = .ok a := by
          cases hg : alGet d "lat" with
          | none =>
            rw [hg] at hcond
            exact absurd hcond.1 (by simp [PyVal.truthy])
          | some v =>
            rw [hg] at hlat hcond
            cases v with
            | vnone => exact absurd hcond.1 (by simp [PyVal.truthy])
            | vnum q => exact ⟨q, rfl⟩
            | vbool b => exact absurd hlat (by simp [fieldOk, numOrNone])
            | vstr s => exact absurd hlat (by simp [fieldOk, numOrNone])
            | vlist l => exact absurd hlat (by simp [fieldOk, numOrNone])
            | vdict d' => exact absurd hlat (by simp [fieldOk, numOrNone])
        have hlon' : ∃ b, pyNum ((alGet d "lon").getD .vnone) = .ok b := by
          cases hg : alGet d "lon" with
          | none =>
            rw [hg] at hcond
            exact absurd hcond.2 (by simp [PyVal.truthy])
          | some v =>
            rw [hg] at hlon hcond
            cases v with
            | vnone => exact absurd hcond.2 (by simp [PyVal.truthy])
            | vnum q => exact ⟨q, rfl⟩
            | vbool b => exact absurd hlon (by simp [fieldOk, numOrNone])
            | vstr s => exact absurd hlon (by simp [fieldOk, numOrNone])
            | vlist l => exact absurd hlon (by simp [fieldOk, numOrNone])
            | vdict d' => exact absurd hlon (by simp [fieldOk, numOrNone])
        obtain ⟨a, ha⟩ := hlat'
        obtain ⟨b, hb⟩ := hlon'
        rw [ha]
        simp only [exbind_ok_left]
        rw [hb]
        exact ⟨some (a, b), rfl⟩
      · rw [if_neg hcond]
        exact ⟨none, rfl⟩
    obtain ⟨co, hco⟩ := hcoords
    rw [hco]
    simp only [exbind_ok_left]
    have hlogo : ∃ dom, logoLookup ((alGet d "airline_name").getD NA) = .ok dom := by
      cases hg : alGet d "airline_name" with
      | none => exact ⟨alGet AIRLINE_LOGO_DOMAINS "N/A", rfl⟩
      | some v =>
        rw [hg] at hair
        cases v with
        | vnone => exact ⟨none, rfl⟩
        | vbool b => exact ⟨none, rfl⟩
        | vnum q => exact ⟨none, rfl⟩
        | vstr s => exact ⟨alGet AIRLINE_LOGO_DOMAINS s, rfl⟩
        | vlist l => exact absurd hair (by simp [fieldOk, hashablePy])
        | vdict d' => exact absurd hair (by simp [fieldOk, hashablePy])
    obtain ⟨dom, hdom⟩ := hlogo
    rw [hdom]
    simp only [exbind_ok_left]
    exact ⟨_, rfl⟩
  | vnone => exact absurd hs (by simp [drawSafe])
  | vbool b => exact absurd hs (by simp [drawSafe])
  | vnum q => exact absurd hs (by simp [drawSafe])
  | vstr s => exact absurd hs (by simp [drawSafe])
  | vlist l => exact absurd hs (by simp [drawSafe])

/-- The callsign computation `(ac.get("flight") or "").strip()` succeeds on
a record whose `flight` field is a string, null, or absent; and it can only
produce a non-empty callsign when `flight` is present as a string. -/
theorem enrich_strip_stage (d : List (String × PyVal))
    (hfl : fieldOk strOrNone (alGet d "flight") = true) :
    ∃ cs, pyStrip (if ((alGet d "flight").getD .vnone).truthy
        then (alGet d "flight").getD .vnone else .vstr "") = .ok cs ∧
      (cs ≠ "" → ∃ s, alGet d "flight" = some (.vstr s)) := by
  cases hg : alGet d "flight" with
  | none => exact ⟨"", rfl, fun hne => absurd rfl hne⟩
  | some v =>
    rw [hg] at hfl
    cases v with
    | vnone => exact ⟨"", rfl, fun hne => absurd rfl hne⟩
    | vstr s =>
      by_cases hs : s = ""
      · subst hs
        exact ⟨"", rfl, fun _ => ⟨"", rfl⟩⟩
      · refine ⟨strTrim s, ?_, fun _ => ⟨s, rfl⟩⟩
        rw [if_pos (show ((some (PyVal.vstr s)).getD .vnone).truthy = true by
          simp [PyVal.truthy, hs])]
        rfl
    | vbool b => exact absurd hfl (by simp [fieldOk, strOrNone])
    | vnum q => exact absurd hfl (by simp [fieldOk, strOrNone])
    | vlist l => exact absurd hfl (by simp [fieldOk, strOrNone])
    | vdict d' => exact absurd hfl (by simp [fieldOk, strOrNone])

/-- The enrichment loop never raises on well-typed records with a
well-formed cache and a well-behaved route service, preserves cache
well-formedness, and every kept record is `drawSafe`. -/
theorem enrichLoop_ok (net : String → Option PyVal) (hnet : netOk net) :
    ∀ (items : List PyVal) (c : Cache), cacheOk c = true →
    (∀ ac ∈ items, wellTypedAC ac = true) →
    ∃ es c2, enrichLoop net c items = .ok (es, c2) ∧ cacheOk c2 = true ∧
      ∀ e ∈ es, drawSafe e = true := by
  intro items
  induction items with
  | nil =>
    intro c hc _
    exact ⟨[], c, rfl, hc, by simp⟩
  | cons ac rest ih =>
    intro c hc hwt
    have hachead := hwt ac (List.mem_cons_self ac rest)
    have hwtail : ∀ a ∈ rest, wellTypedAC a = true :=
      fun a ha => hwt a (List.mem_cons_of_mem ac ha)
    obtain ⟨d, rfl⟩ : ∃ d, ac = .vdict d := by
      cases ac with
      | vdict d => exact ⟨d, rfl⟩
      | vnone => exact absurd hachead (by simp [wellTypedAC])
      | vbool b => exact absurd hachead (by simp [wellTypedAC])
      | vnum q => exact absurd hachead (by simp [wellTypedAC])
      | vstr s => exact absurd hachead (by simp [wellTypedAC])
      | vlist l => exact absurd hachead (by simp [wellTypedAC])
    simp only [wellTypedAC, Bool.and_eq_true] at hachead
    obtain ⟨⟨⟨hfl, hgs⟩, hlat⟩, hlon⟩ := hachead
    simp only [enrichLoop, pyGetD, exbind_ok_left]
    obtain ⟨cs, hcs, hcs'⟩ := enrich_strip_stage d hfl
    rw [hcs]
    simp only [exbind_ok_left]
    obtain ⟨hhash, hcok, hempty⟩ := routeTriple_props net c cs hnet hc
    by_cases hna : pyEqStr (fetch_route_info net c cs).triple.1 "N/A" = true
    · rw [if_pos hna]
      exact ih (fetch_route_info net c cs).cache hcok hwtail
    · rw [if_neg hna]
      obtain ⟨es, c2, heq, hc2, hsafe⟩ := ih (fetch_route_info net c cs).cache hcok hwtail
      rw [heq]
      simp only [exbind_ok_left]
      refine ⟨_ :: es, c2, rfl, hc2, ?_⟩
      intro e he
      rcases List.mem_cons.mp he with rfl | he'
      · -- the freshly enriched record is drawSafe
        have hcsne : cs ≠ "" := fun h => hna (hempty h)
        obtain ⟨s, hfls⟩ := hcs' hcsne
        have hne1 : ("flight" : String) ≠ "destination_name" := by decide
        have hne2 : ("flight" : String) ≠ "origin_name" := by decide
        have hne3 : ("flight" : String) ≠ "airline_name" := by decide
        have hne4 : ("gs" : String) ≠ "destination_name" := by decide
        have hne5 : ("gs" : String) ≠ "origin_name" := by decide
        have hne6 : ("gs" : String) ≠ "airline_name" := by decide
        have hne7 : ("lat" : String) ≠ "destination_name" := by decide
        have hne8 : ("lat" : String) ≠ "origin_name" := by decide
        have hne9 : ("lat" : String) ≠ "airline_name" := by decide
        have hne10 : ("lon" : String) ≠ "destination_name" := by decide
        have hne11 : ("lon" : String) ≠ "origin_name" := by decide
        have hne12 : ("lon" : String) ≠ "airline_name" := by decide
        have hne13 : ("airline_name" : String) ≠ "destination_name" := by decide
        have hne14 : ("airline_name" : String) ≠ "origin_name" := by decide
        simp only [drawSafe, Bool.and_eq_true,
          alGet_alSet_ne _ _ _ _ hne1, alGet_alSet_ne _ _ _ _ hne2,
          alGet_alSet_ne _ _ _ _ hne3, alGet_alSet_ne _ _ _ _ hne4,
          alGet_alSet_ne _ _ _ _ hne5, alGet_alSet_ne _ _ _ _ hne6,
          alGet_alSet_ne _ _ _ _ hne7, alGet_alSet_ne _ _ _ _ hne8,
          alGet_alSet_ne _ _ _ _ hne9, alGet_alSet_ne _ _ _ _ hne10,
          alGet_alSet_ne _ _ _ _ hne11, alGet_alSet_ne _ _ _ _ hne12,
          alGet_alSet_ne _ _ _ _ hne13, alGet_alSet_ne _ _ _ _ hne14,
          alGet_alSet_self, hfls]
        exact ⟨⟨⟨⟨rfl, hgs⟩, hlat⟩, hlon⟩, hhash⟩
      · exact hsafe e he'

/-- **C1 (amended).** One iteration of the scheduler loop body — fetching,
enriching, rendering — never raises an exception, provided the aircraft
entries of the fetched payload conform to the spec's `RawAircraft` data
model (`flight` a string/null/absent, `gs`/`lat`/`lon` numbers/null/absent)
and the route service's parsed airline names are hashable values. Transport
errors, non-2xx statuses, malformed bodies, missing fields, non-numeric
`alt_baro` values, and route-lookup failures are all recovered locally.
(Without the typing proviso the claim is false: see the counterexample,
where a numeric `flight` value raises an uncaught `AttributeError`.) -/
theorem loop_iteration_no_uncaught_exception
    (net : String → Option PyVal) (resp : Option PyVal) (st : AppState) (now : ℚ)
    (hnet : netOk net) (hcache : cacheOk st.cache = true)
    (hac : ∀ ac ∈ pyIterL (fetch_aircraft resp), wellTypedAC ac = true) :
    ∃ r, runIteration net resp st now = .ok r := by
  simp only [runIteration, pyIter_fetch resp, exbind_ok_left]
  have hcch : (if now - st.last_switch ≥ 300 then
      { st with idx := (st.idx + 1) % LOCATIONS.length, last_switch := now }
    else st).cache = st.cache := by
    split <;> rfl
  rw [hcch]
  obtain ⟨es, c2, heq, hc2, hsafe⟩ :=
    enrichLoop_ok net hnet (pyIterL (fetch_aircraft resp)) st.cache hcache hac
  rw [heq]
  simp only [exbind_ok_left]
  by_cases hemp : es.isEmpty = true
  · rw [if_pos hemp]
    exact ⟨_, rfl⟩
  · rw [if_neg hemp]
    cases es with
    | nil => exact absurd rfl hemp
    | cons e es' =>
      obtain ⟨o, ho⟩ := drawCompute_ok_of_drawSafe e es'
        (hsafe e (List.mem_cons_self e es'))
      rw [ho]
      simp only [exbind_ok_left]
      exact ⟨_, rfl⟩

/-- **C1 counterexample.** A payload the position service can return whose
single aircraft entry has the numeric `flight` value `5`: the enrichment
step computes `(ac.get("flight") or "").strip()`, and `(5).strip()` raises
an uncaught `AttributeError` that escapes the loop body — there is no
try/except around the loop. -/
theorem loop_iteration_raises_counterexample :
    runIteration (fun _ => none)
      (some (.vdict [("ac", .vlist [.vdict [("flight", .vnum 5)]])]))
      ⟨0, 0, []⟩ 0 = .error .attributeError := by
  have hc : ¬((0 : ℚ) - (0 : ℚ) ≥ 300) := by norm_num
  simp only [runIteration, if_neg hc]
  rfl

/-- **C1 witness.** A payload with one well-typed aircraft entry, a failing
route service, and the empty cache: the iteration completes without an
exception. -/
theorem loop_iteration_no_uncaught_exception_witness :
    cacheOk ([] : Cache) = true ∧
    (pyIterL (fetch_aircraft (some (.vdict [("ac",
        .vlist [.vdict [("flight", .vstr "AAL123"), ("gs", .vnum 400)]])])))).all
      wellTypedAC = true ∧
    exOk (runIteration (fun _ => none) (some (.vdict [("ac",
        .vlist [.vdict [("flight", .vstr "AAL123"), ("gs", .vnum 400)]])]))
      ⟨0, 0, []⟩ 0) = true := by
  have hnet : netOk (fun _ => none) := fun cs j h => by cases h
  have hac : ∀ ac ∈ pyIterL (fetch_aircraft (some (.vdict [("ac",
      .vlist [.vdict [("flight", .vstr "AAL123"), ("gs", .vnum 400)]])]))),
      wellTypedAC ac = true := by
    intro ac hmem
    have hred : pyIterL (fetch_aircraft (some (.vdict [("ac",
        .vlist [.vdict [("flight", .vstr "AAL123"), ("gs", .vnum 400)]])]))) =
        [.vdict [("flight", .vstr "AAL123"), ("gs", .vnum 400)]] := rfl
    rw [hred] at hmem
    obtain rfl := List.mem_singleton.mp hmem
    rfl
  obtain ⟨r, hr⟩ :=
    loop_iteration_no_uncaught_exception _ _ ⟨0, 0, []⟩ 0 hnet rfl hac
  refine ⟨rfl, rfl, ?_⟩
  rw [hr]
  rfl
